import Mathlib

/-!
# A shallow embedding of the FSEOF implementation (cobra-fseof)

This file embeds the module `cobra_fseof/fseof.py` in Lean 4 and proves
properties of the embedding.  Real-valued fluxes are modelled by `ℚ`
(the algorithm performs only field arithmetic and comparisons on them).
The external collaborators (the LP optimizer and the flux-variability
capability) are modelled as explicit fallible functions; every invocation
of a capability is recorded in a call log so that claims about *which*
calls happen (and in what order) can be stated.
-/

namespace CobraFseof

/-- Objective direction, the `enforced_direction: Literal["min", "max"]`
argument and the model's `objective_direction` attribute. -/
inductive Direction where
  | dmin
  | dmax
deriving DecidableEq, Repr

/-- The part of a `cobra.Reaction` that the algorithm reads or writes:
its id, its `boundary` and `functional` flags, and its flux bounds. -/
structure Reaction where
  id : String
  boundary : Bool
  functional : Bool
  lb : ℚ
  ub : ℚ
deriving DecidableEq, Repr

/-- The part of a `cobra.Model` that the algorithm reads or writes:
the reaction list, the current objective and the objective direction. -/
structure CobraModel where
  reactions : List Reaction
  objectiveId : String
  objectiveDirection : Direction
deriving DecidableEq, Repr

/-- `ReactionLike = Union[cobra.Reaction, str]`. -/
inductive ReactionLike where
  | str (s : String)
  | rxn (r : Reaction)
deriving DecidableEq, Repr

/-- `as_id(obj)`: the object itself when it is a string, else its `.id`. -/
def as_id : ReactionLike → String
  | .str s => s
  | .rxn r => r.id

/-- Python `==` between a reaction id (a `str`) and one element of the
`exclude` list at the call site `default_reactions(model, [enforced,
objective])`.  At that call site `enforced` and `objective` have not yet
been passed through `as_id`, so `exclude` may hold `cobra.Reaction`
objects: a Python `str` equals another `str` by value and never equals a
`cobra.Reaction` object (cobra objects use default identity equality). -/
def pyStrEq (s : String) : ReactionLike → Bool
  | .str t => s == t
  | .rxn _ => false

/-- `default_reactions(model, exclude)`:
`[rxn.id for rxn in model.reactions
  if (rxn.id not in exclude) and (not rxn.boundary) and rxn.functional]`.
The `exclude` argument is typed `List[str]` in the source, but the one
call site passes the raw `[enforced, objective]` arguments, which may be
reaction objects; membership is therefore tested with Python equality
semantics (`pyStrEq`). -/
def default_reactions (model : CobraModel) (exclude : List ReactionLike) : List String :=
  (model.reactions.filter
    (fun r => !(exclude.any (pyStrEq r.id)) && !r.boundary && r.functional)).map
    (fun r => r.id)

/-- `model.copy()`: an independent deep copy (fresh objects holding equal
contents). -/
def CobraModel.copy (m : CobraModel) : CobraModel :=
  { reactions := m.reactions.map (fun r =>
      { id := r.id, boundary := r.boundary, functional := r.functional,
        lb := r.lb, ub := r.ub }),
    objectiveId := m.objectiveId,
    objectiveDirection := m.objectiveDirection }

/-- `model.objective = rid` (the objective direction is untouched). -/
def setObjective (m : CobraModel) (rid : String) : CobraModel :=
  { m with objectiveId := rid }

/-- `model.objective_direction = d`. -/
def setDirection (m : CobraModel) (d : Direction) : CobraModel :=
  { m with objectiveDirection := d }

/-- `model.reactions.get_by_id(rid).bounds = b`. -/
def setBounds (m : CobraModel) (rid : String) (b : ℚ × ℚ) : CobraModel :=
  { m with reactions := m.reactions.map (fun r =>
      if r.id = rid then { r with lb := b.1, ub := b.2 } else r) }

/-- `solution.fluxes`: a total mapping from reaction id to flux. -/
def Solution := String → ℚ

/-- The result of `flux_variability_analysis`: per reaction id, its
(minimum, maximum) flux interval. -/
def FvaResult := String → ℚ × ℚ

/-- One row of the `step` DataFrame. -/
structure StepRow where
  enforced_flux : ℚ
  objective_flux : ℚ
deriving DecidableEq, Repr

/-- One row of the `scan` DataFrame (per candidate reaction):
the `target` flag, `vmin`, `vmax` and the per-step fluxes `flux<i>`. -/
structure ScanRow where
  target : Bool
  vmin : ℚ
  vmax : ℚ
  fluxes : List ℚ
deriving DecidableEq, Repr

/-- One row of the `fva` DataFrame (per target reaction):
the `rank` and the per-step bounds `min<i>` / `max<i>`. -/
structure FvaRow where
  rank : ℕ
  mins : List ℚ
  maxs : List ℚ
deriving DecidableEq, Repr

/-- `FSEOFResults = namedtuple("FSEOFResults", ["step", "scan", "fva"])`.
Tables are rows paired with their index entry (the reaction id). -/
structure FSEOFResults where
  step : List StepRow
  scan : List (String × ScanRow)
  fva : List (String × FvaRow)
deriving DecidableEq, Repr

/-- Errors escaping `fseof`: the `raise ValueError()` at the
`enforced_opt == enforced_base` check (the spec calls it
`ConfigurationError`), or an exception of the optimization / variability
capability, propagated unchanged. -/
inductive FErr (ε : Type) where
  | valueError
  | external (e : ε)
deriving DecidableEq, Repr

/-- A record of one call into an external capability: the model state the
capability was handed, and for FVA also the reaction-id set. -/
inductive CallRecord where
  | opt (state : CobraModel)
  | fva (state : CobraModel) (rxns : List String)
deriving DecidableEq, Repr

/-- Outcome of a run of `fseof`: the caller's model object as it stands
after the call, the log of capability calls made (in order), and either
the results bundle or the escaping error. -/
structure FseofOutcome (ε : Type) where
  callerModel : CobraModel
  log : List CallRecord
  result : Except (FErr ε) FSEOFResults

/-- Python `min` over a nonempty collection (`min(fluxes.values())`);
the `[]` case is junk (Python raises there). -/
def listMin : List ℚ → ℚ
  | [] => 0
  | x :: xs => xs.foldl min x

/-- Python `max` over a nonempty collection; the `[]` case is junk. -/
def listMax : List ℚ → ℚ
  | [] => 0
  | x :: xs => xs.foldl max x

/-- Python `sorted` on a list of numbers: ascending order. -/
def pySorted (l : List ℚ) : List ℚ := List.insertionSort (· ≤ ·) l

/-- `max(M - m for m, M in zip(min_fluxes, max_fluxes))`. -/
def maxWidth (mins maxs : List ℚ) : ℚ :=
  listMax (List.zipWith (fun m M => M - m) mins maxs)

/-- The three nested ranking checks of the FVA stage (lines 150-156):
`rank = 0`, `+1` if `sorted(min_fluxes) == min_fluxes`, then `+1` if
`min(max_fluxes) < max(min_fluxes)`, then `+1` if the largest per-step
width is `< 1e-3`. -/
def rankOf (mins maxs : List ℚ) : ℕ :=
  if pySorted mins = mins then
    if listMin maxs < listMax mins then
      if maxWidth mins maxs < 1 / 1000 then 3 else 2
    else 1
  else 0

/-- The scan-stage classification of one reaction from its per-step
fluxes (lines 127-131): `vmin`/`vmax` are min/max over the steps and
`target = (vmax * vmin >= 0) and (abs(vmax) > abs(fluxes["flux0"]))`. -/
def mkScanRow (fluxes : List ℚ) : ScanRow :=
  let vmin := listMin fluxes
  let vmax := listMax fluxes
  { target := decide (vmax * vmin ≥ 0) && decide (|vmax| > |fluxes.headD 0|),
    vmin := vmin, vmax := vmax, fluxes := fluxes }

/-- The scoped model state of one scan / FVA step: the enforced
reaction's bounds fixed to `(v, v)` and the objective set to the base
objective (direction untouched). -/
def stepState (work : CobraModel) (enfId objId : String) (v : ℚ) : CobraModel :=
  setObjective (setBounds work enfId (v, v)) objId

/-- `np.linspace(start, stop, num)`: `num` equally spaced samples over
the closed interval (both endpoints included when `num ≥ 2`; `[start]`
when `num = 1`; `[]` when `num = 0`). -/
def linspace (start stop : ℚ) (num : ℕ) : List ℚ :=
  (List.range num).map (fun (i : ℕ) => start + (stop - start) * (i : ℚ) / ((num : ℚ) - 1))

/-- The scan loop (lines 108-116): for each interpolated value `v`, in
order, fix the enforced bounds to `(v, v)` inside a scoped mutation, set
the objective and invoke the optimizer; a failure aborts the loop and
propagates. Returns the call log and, on success, the `(v, solution)`
pairs. -/
def scanLoop {ε : Type} (work : CobraModel) (enfId objId : String)
    (optimizer : CobraModel → Except ε Solution) :
    List ℚ → List CallRecord × Except ε (List (ℚ × Solution))
  | [] => ([], .ok [])
  | v :: vs =>
    let st := stepState work enfId objId v
    match optimizer st with
    | .error e => ([.opt st], .error e)
    | .ok s =>
      match scanLoop work enfId objId optimizer vs with
      | (log, .error e) => (.opt st :: log, .error e)
      | (log, .ok rest) => (.opt st :: log, .ok ((v, s) :: rest))

/-- The FVA loop (lines 138-143): same scoped step states as the scan,
invoking the flux-variability capability on the candidate set; a failure
aborts and propagates. -/
def fvaLoop {ε : Type} (work : CobraModel) (enfId objId : String)
    (fvaCap : CobraModel → List String → Except ε FvaResult)
    (candidates : List String) :
    List ℚ → List CallRecord × Except ε (List FvaResult)
  | [] => ([], .ok [])
  | v :: vs =>
    let st := stepState work enfId objId v
    match fvaCap st candidates with
    | .error e => ([.fva st candidates], .error e)
    | .ok d =>
      match fvaLoop work enfId objId fvaCap candidates vs with
      | (log, .error e) => (.fva st candidates :: log, .error e)
      | (log, .ok rest) => (.fva st candidates :: log, .ok (d :: rest))

/-- The candidate-reaction set of a run: `default_reactions(model,
[enforced, objective])` when the caller omits `reactions` (computed with
the raw, not-yet-`as_id`-converted arguments, as in the source), else
the caller's list mapped through `as_id`. -/
def fseofCandidates (model : CobraModel) (enforced objective : ReactionLike)
    (reactions? : Option (List ReactionLike)) : List String :=
  match reactions? with
  | none => default_reactions model [enforced, objective]
  | some rs => rs.map as_id

/-- The full `fseof` pipeline (lines 29-166), with the optimizer and the
flux-variability capability passed explicitly and every capability call
logged.  All model mutations act on the private copy `model0.copy`; the
scoped `with model:` blocks of the source become locally constructed
states that are dropped afterwards. -/
def fseof {ε : Type} (model0 : CobraModel) (num_steps : ℕ)
    (enforced objective : ReactionLike)
    (enforced_direction : Direction) (enforced_frac_opt : ℚ)
    (reactions? : Option (List ReactionLike))
    (optimizer : CobraModel → Except ε Solution)
    (fvaCap : CobraModel → List String → Except ε FvaResult) :
    FseofOutcome ε :=
  let model := model0.copy
  let reactions := fseofCandidates model enforced objective reactions?
  let enforcedId := as_id enforced
  let objectiveId := as_id objective
  let st1 := setObjective model objectiveId
  match optimizer st1 with
  | .error e => ⟨model0, [.opt st1], .error (.external e)⟩
  | .ok sol1 =>
    let enforced_base := sol1 enforcedId
    let st2 := setDirection (setObjective model enforcedId) enforced_direction
    match optimizer st2 with
    | .error e => ⟨model0, [.opt st1, .opt st2], .error (.external e)⟩
    | .ok sol2 =>
      let enforced_opt := sol2 enforcedId
      if enforced_opt = enforced_base then
        ⟨model0, [.opt st1, .opt st2], .error .valueError⟩
      else
        let scan_fluxes := linspace enforced_base (enforced_frac_opt * enforced_opt) num_steps
        match scanLoop model enforcedId objectiveId optimizer scan_fluxes with
        | (slog, .error e) => ⟨model0, .opt st1 :: .opt st2 :: slog, .error (.external e)⟩
        | (slog, .ok stepSols) =>
          let step_data := stepSols.map (fun p => ⟨p.1, p.2 objectiveId⟩)
          let scan_data := reactions.map
            (fun rid => (rid, mkScanRow (stepSols.map (fun p => p.2 rid))))
          let candidates := (scan_data.filter (fun p => p.2.target)).map (fun p => p.1)
          match fvaLoop model enforcedId objectiveId fvaCap candidates scan_fluxes with
          | (flog, .error e) =>
            ⟨model0, .opt st1 :: .opt st2 :: (slog ++ flog), .error (.external e)⟩
          | (flog, .ok fvaPerStep) =>
            let fva_data := candidates.map (fun rid =>
              (rid, ({ rank := rankOf (fvaPerStep.map (fun d => (d rid).1))
                                       (fvaPerStep.map (fun d => (d rid).2)),
                       mins := fvaPerStep.map (fun d => (d rid).1),
                       maxs := fvaPerStep.map (fun d => (d rid).2) } : FvaRow)))
            let fva_sorted := List.insertionSort (fun a b => b.2.rank ≤ a.2.rank) fva_data
            ⟨model0, .opt st1 :: .opt st2 :: (slog ++ flog),
             .ok ⟨step_data, scan_data, fva_sorted⟩⟩

/-- A never-failing optimization capability built from a deterministic
solution function. -/
def totOpt {ε : Type} (sol : CobraModel → Solution) : CobraModel → Except ε Solution :=
  fun m => Except.ok (sol m)

/-- A never-failing flux-variability capability built from a
deterministic interval function. -/
def totFva {ε : Type} (f : CobraModel → List String → FvaResult) :
    CobraModel → List String → Except ε FvaResult :=
  fun m rs => Except.ok (f m rs)

/-- The optimizer call records of a successful scan, one per
interpolated value, in step order. -/
def scanStatesOf (work : CobraModel) (enfId objId : String) (vs : List ℚ) : List CallRecord :=
  vs.map (fun v => .opt (stepState work enfId objId v))

/-- The `(v, solution)` pairs of a successful scan. -/
def stepSolsOf (sol : CobraModel → Solution) (work : CobraModel) (enfId objId : String)
    (vs : List ℚ) : List (ℚ × Solution) :=
  vs.map (fun v => (v, sol (stepState work enfId objId v)))

/-- The target candidates a successful scan with solution function `sol`
hands to the FVA stage. -/
def candidatesOf (sol : CobraModel → Solution) (work : CobraModel) (enfId objId : String)
    (vs : List ℚ) (rids : List String) : List String :=
  ((rids.map (fun rid =>
      (rid, mkScanRow (vs.map (fun v => sol (stepState work enfId objId v) rid))))).filter
    (fun p => p.2.target)).map (fun p => p.1)

/-- The outcome `fseof` produces when both capabilities always succeed
(`totOpt sol`, `totFva f`) and the two bound-finding fluxes differ:
spelled out stage by stage. -/
def fseofOk {ε : Type} (model0 : CobraModel) (num_steps : ℕ)
    (enforced objective : ReactionLike) (dir : Direction) (frac : ℚ)
    (reactions? : Option (List ReactionLike))
    (sol : CobraModel → Solution) (f : CobraModel → List String → FvaResult) :
    FseofOutcome ε :=
  let model := model0.copy
  let reactions := fseofCandidates model enforced objective reactions?
  let enfId := as_id enforced
  let objId := as_id objective
  let st1 := setObjective model objId
  let st2 := setDirection (setObjective model enfId) dir
  let vs := linspace (sol st1 enfId) (frac * sol st2 enfId) num_steps
  let stepSols := stepSolsOf sol model enfId objId vs
  let step_data := stepSols.map (fun p => (⟨p.1, p.2 objId⟩ : StepRow))
  let scan_data := reactions.map (fun rid => (rid, mkScanRow (stepSols.map (fun p => p.2 rid))))
  let candidates := (scan_data.filter (fun p => p.2.target)).map (fun p => p.1)
  let fvaPerStep := vs.map (fun v => f (stepState model enfId objId v) candidates)
  let fva_data := candidates.map (fun rid =>
    (rid, ({ rank := rankOf (fvaPerStep.map (fun d => (d rid).1))
                             (fvaPerStep.map (fun d => (d rid).2)),
             mins := fvaPerStep.map (fun d => (d rid).1),
             maxs := fvaPerStep.map (fun d => (d rid).2) } : FvaRow)))
  ⟨model0,
   .opt st1 :: .opt st2 ::
     (scanStatesOf model enfId objId vs ++
      vs.map (fun v => .fva (stepState model enfId objId v) candidates)),
   .ok ⟨step_data, scan_data,
        List.insertionSort (fun a b => b.2.rank ≤ a.2.rank) fva_data⟩⟩

/-! ### Concrete fixtures used to evaluate the theorems on closed inputs -/

/-- A tiny concrete model: two functional non-boundary reactions `R1`
(product, to be enforced) and `R2` (biomass, the base objective). -/
def wModel : CobraModel :=
  { reactions := [⟨"R1", false, true, -1000, 1000⟩, ⟨"R2", false, true, -1000, 1000⟩],
    objectiveId := "R2",
    objectiveDirection := .dmax }

/-- A deterministic solution function: flux 10 on `R1` when the current
objective is `R1`, else all fluxes 0. -/
def wSol : CobraModel → Solution :=
  fun m rid => if m.objectiveId = "R1" then (if rid = "R1" then 10 else 0) else 0

/-- A deterministic flux-variability function: every reaction gets the
interval `(0, 0)`. -/
def wFva : CobraModel → List String → FvaResult :=
  fun _ _ _ => (0, 0)

/-- A solution function whose enforced-reaction flux is the same under
both bound-finding objectives. -/
def wSolConst : CobraModel → Solution := fun _ _ => 0

/-- An optimizer that fails (models an infeasible LP) exactly on models
with a pinned reaction, i.e. on every scan-step state, and otherwise
behaves like `wSol`. -/
def wOptFail : CobraModel → Except Unit Solution :=
  fun m =>
    match m.reactions with
    | r :: _ => if r.lb = r.ub then .error () else .ok (wSol m)
    | [] => .ok (wSol m)

/-- The optimization capability fails at some scan step: the scan values
split as `vs₁ ++ v :: vs₂` with every step before `v` succeeding and the
step at `v` returning the error `e`. -/
def scanAborts {ε : Type} (work : CobraModel) (enfId objId : String)
    (optimizer : CobraModel → Except ε Solution) (vs : List ℚ) (e : ε) : Prop :=
  ∃ vs₁ v vs₂, vs = vs₁ ++ v :: vs₂
    ∧ (∀ u ∈ vs₁, ∃ s, optimizer (stepState work enfId objId u) = Except.ok s)
    ∧ optimizer (stepState work enfId objId v) = Except.error e

/-- The flux-variability capability fails at some step of the FVA stage
(invoked on candidate set `cands`). -/
def fvaAborts {ε : Type} (work : CobraModel) (enfId objId : String)
    (fvaCap : CobraModel → List String → Except ε FvaResult) (cands : List String)
    (vs : List ℚ) (e : ε) : Prop :=
  ∃ vs₁ v vs₂, vs = vs₁ ++ v :: vs₂
    ∧ (∀ u ∈ vs₁, ∃ d, fvaCap (stepState work enfId objId u) cands = Except.ok d)
    ∧ fvaCap (stepState work enfId objId v) cands = Except.error e

/-- A three-reaction model for exercising the default candidate set:
`P` (the product reaction to enforce), `B` (biomass) and `X`, all
non-boundary and functional. -/
def cModel : CobraModel :=
  { reactions := [⟨"P", false, true, -1000, 1000⟩, ⟨"B", false, true, -1000, 1000⟩,
                  ⟨"X", false, true, -1000, 1000⟩],
    objectiveId := "B",
    objectiveDirection := .dmax }

/-- The reaction object `P` of `cModel`, for passing `enforced` in its
object (rather than id-string) form. -/
def pRxn : Reaction := ⟨"P", false, true, -1000, 1000⟩

/-- The candidate set the spec describes for the default case: every
non-boundary, functional reaction of the model whose id differs from the
enforced id and from the objective id.  Modelled from the spec text
("default = all non-boundary, functional reactions excluding
enforced/objective") for comparison with the implementation. -/
def specDefaultCandidates (model : CobraModel) (enfId objId : String) : List String :=
  (model.reactions.filter
    (fun r => !(r.id == enfId) && !(r.id == objId) && !r.boundary && r.functional)).map
    (fun r => r.id)

lemma scanLoop_ok {ε : Type} (work : CobraModel) (enfId objId : String)
    (sol : CobraModel → Solution) (vs : List ℚ) :
    scanLoop (ε := ε) work enfId objId (totOpt sol) vs =
      (scanStatesOf work enfId objId vs,
       Except.ok (stepSolsOf sol work enfId objId vs)) := by
  induction vs with
  | nil => rfl
  | cons v vs ih => simp [scanLoop, totOpt, ih, scanStatesOf, stepSolsOf]

lemma fvaLoop_ok {ε : Type} (work : CobraModel) (enfId objId : String)
    (f : CobraModel → List String → FvaResult) (cands : List String) (vs : List ℚ) :
    fvaLoop (ε := ε) work enfId objId (totFva f) cands vs =
      (vs.map (fun v => .fva (stepState work enfId objId v) cands),
       Except.ok (vs.map (fun v => f (stepState work enfId objId v) cands))) := by
  induction vs with
  | nil => rfl
  | cons v vs ih => simp [fvaLoop, totFva, ih]

lemma scanLoop_error {ε : Type} (work : CobraModel) (enfId objId : String)
    (optimizer : CobraModel → Except ε Solution) (vs₁ : List ℚ) (v : ℚ) (vs₂ : List ℚ) (e : ε)
    (hok : ∀ u ∈ vs₁, ∃ s, optimizer (stepState work enfId objId u) = Except.ok s)
    (herr : optimizer (stepState work enfId objId v) = Except.error e) :
    (scanLoop work enfId objId optimizer (vs₁ ++ v :: vs₂)).2 = Except.error e := by
  induction vs₁ with
  | nil => simp [scanLoop, herr]
  | cons u us ih =>
    obtain ⟨s, hs⟩ := hok u (List.mem_cons_self u us)
    have ih2 := ih (fun w hw => hok w (List.mem_cons_of_mem u hw))
    rcases hrec : scanLoop work enfId objId optimizer (us ++ v :: vs₂) with ⟨log, res⟩
    rw [hrec] at ih2
    simp only at ih2
    subst ih2
    simp [List.cons_append, scanLoop, hs, hrec]

lemma fvaLoop_error {ε : Type} (work : CobraModel) (enfId objId : String)
    (fvaCap : CobraModel → List String → Except ε FvaResult) (cands : List String)
    (vs₁ : List ℚ) (v : ℚ) (vs₂ : List ℚ) (e : ε)
    (hok : ∀ u ∈ vs₁, ∃ d, fvaCap (stepState work enfId objId u) cands = Except.ok d)
    (herr : fvaCap (stepState work enfId objId v) cands = Except.error e) :
    (fvaLoop work enfId objId fvaCap cands (vs₁ ++ v :: vs₂)).2 = Except.error e := by
  induction vs₁ with
  | nil => simp [fvaLoop, herr]
  | cons u us ih =>
    obtain ⟨d, hd⟩ := hok u (List.mem_cons_self u us)
    have ih2 := ih (fun w hw => hok w (List.mem_cons_of_mem u hw))
    rcases hrec : fvaLoop work enfId objId fvaCap cands (us ++ v :: vs₂) with ⟨log, res⟩
    rw [hrec] at ih2
    simp only at ih2
    subst ih2
    simp [List.cons_append, fvaLoop, hd, hrec]

/-- Characterization of a fully successful run: with never-failing
capabilities and distinct bound-finding fluxes, `fseof` returns the
stage-by-stage outcome `fseofOk`. -/
lemma fseof_total {ε : Type} (model0 : CobraModel) (num_steps : ℕ)
    (enforced objective : ReactionLike) (dir : Direction) (frac : ℚ)
    (reactions? : Option (List ReactionLike))
    (sol : CobraModel → Solution) (f : CobraModel → List String → FvaResult)
    (hne : sol (setDirection (setObjective model0.copy (as_id enforced)) dir) (as_id enforced)
           ≠ sol (setObjective model0.copy (as_id objective)) (as_id enforced)) :
    fseof (ε := ε) model0 num_steps enforced objective dir frac reactions?
        (totOpt sol) (totFva f) =
      fseofOk model0 num_steps enforced objective dir frac reactions? sol f := by
  unfold fseof fseofOk
  simp only [totOpt, totFva, scanLoop_ok, fvaLoop_ok, if_neg hne]

/-! ## Basic facts about the Python `min` / `max` / `sorted` embeddings -/

lemma foldl_min_le_init (xs : List ℚ) : ∀ a : ℚ, xs.foldl min a ≤ a := by
  induction xs with
  | nil => intro a; exact le_refl a
  | cons y ys ih => intro a; exact le_trans (ih (min a y)) (min_le_left a y)

lemma foldl_min_le_mem (xs : List ℚ) : ∀ a x : ℚ, x ∈ xs → xs.foldl min a ≤ x := by
  induction xs with
  | nil => intro a x hx; cases hx
  | cons y ys ih =>
    intro a x hx
    rcases List.mem_cons.mp hx with rfl | hx
    · exact le_trans (foldl_min_le_init ys (min a x)) (min_le_right a x)
    · exact ih (min a y) x hx

lemma foldl_min_mem (xs : List ℚ) : ∀ a : ℚ, xs.foldl min a = a ∨ xs.foldl min a ∈ xs := by
  induction xs with
  | nil => intro a; exact Or.inl rfl
  | cons y ys ih =>
    intro a
    rcases ih (min a y) with h | h
    · rcases min_choice a y with h2 | h2
      · exact Or.inl (by rw [List.foldl_cons, h, h2])
      · exact Or.inr (by rw [List.foldl_cons, h, h2]; exact List.mem_cons_self y ys)
    · exact Or.inr (List.mem_cons_of_mem y h)

lemma foldl_max_ge_init (xs : List ℚ) : ∀ a : ℚ, a ≤ xs.foldl max a := by
  induction xs with
  | nil => intro a; exact le_refl a
  | cons y ys ih => intro a; exact le_trans (le_max_left a y) (ih (max a y))

lemma foldl_max_ge_mem (xs : List ℚ) : ∀ a x : ℚ, x ∈ xs → x ≤ xs.foldl max a := by
  induction xs with
  | nil => intro a x hx; cases hx
  | cons y ys ih =>
    intro a x hx
    rcases List.mem_cons.mp hx with rfl | hx
    · exact le_trans (le_max_right a x) (foldl_max_ge_init ys (max a x))
    · exact ih (max a y) x hx

lemma foldl_max_mem (xs : List ℚ) : ∀ a : ℚ, xs.foldl max a = a ∨ xs.foldl max a ∈ xs := by
  induction xs with
  | nil => intro a; exact Or.inl rfl
  | cons y ys ih =>
    intro a
    rcases ih (max a y) with h | h
    · rcases max_choice a y with h2 | h2
      · exact Or.inl (by rw [List.foldl_cons, h, h2])
      · exact Or.inr (by rw [List.foldl_cons, h, h2]; exact List.mem_cons_self y ys)
    · exact Or.inr (List.mem_cons_of_mem y h)

lemma foldl_max_of_le (xs : List ℚ) : ∀ a : ℚ, (∀ x ∈ xs, x ≤ a) → xs.foldl max a = a := by
  induction xs with
  | nil => intro a _; rfl
  | cons y ys ih =>
    intro a h
    have hya : max a y = a := max_eq_left (h y (List.mem_cons_self y ys))
    rw [List.foldl_cons, hya]
    exact ih a (fun x hx => h x (List.mem_cons_of_mem y hx))

lemma listMin_mem (l : List ℚ) (h : l ≠ []) : listMin l ∈ l := by
  match l, h with
  | x :: xs, _ =>
    show xs.foldl min x ∈ x :: xs
    rcases foldl_min_mem xs x with h1 | h1
    · rw [h1]; exact List.mem_cons_self x xs
    · exact List.mem_cons_of_mem x h1

lemma listMin_le (l : List ℚ) (x : ℚ) (hx : x ∈ l) : listMin l ≤ x := by
  match l with
  | y :: ys =>
    rcases List.mem_cons.mp hx with rfl | h
    · exact foldl_min_le_init ys x
    · exact foldl_min_le_mem ys y x h

lemma listMax_mem (l : List ℚ) (h : l ≠ []) : listMax l ∈ l := by
  match l, h with
  | x :: xs, _ =>
    show xs.foldl max x ∈ x :: xs
    rcases foldl_max_mem xs x with h1 | h1
    · rw [h1]; exact List.mem_cons_self x xs
    · exact List.mem_cons_of_mem x h1

lemma listMax_ge (l : List ℚ) (x : ℚ) (hx : x ∈ l) : x ≤ listMax l := by
  match l with
  | y :: ys =>
    rcases List.mem_cons.mp hx with rfl | h
    · exact foldl_max_ge_init ys x
    · exact foldl_max_ge_mem ys y x h

lemma pySorted_eq_iff (l : List ℚ) : pySorted l = l ↔ l.Sorted (· ≤ ·) := by
  constructor
  · intro h
    have := List.sorted_insertionSort (α := ℚ) (· ≤ ·) l
    rwa [show List.insertionSort (· ≤ ·) l = l from h] at this
  · intro h
    exact h.insertionSort_eq

lemma mkScanRow_vmin (l : List ℚ) : (mkScanRow l).vmin = listMin l := rfl

lemma mkScanRow_vmax (l : List ℚ) : (mkScanRow l).vmax = listMax l := rfl

lemma mkScanRow_target (l : List ℚ) :
    (mkScanRow l).target =
      (decide (listMax l * listMin l ≥ 0) && decide (|listMax l| > |l.headD 0|)) := rfl

/-! ## Facts about `linspace` -/

lemma linspace_length (s t : ℚ) (n : ℕ) : (linspace s t n).length = n := by
  simp only [linspace, List.length_map, List.length_range]

lemma linspace_ne_nil (s t : ℚ) (n : ℕ) (h : 0 < n) : linspace s t n ≠ [] := by
  intro hnil
  have := linspace_length s t n
  rw [hnil] at this
  simp at this
  omega

lemma linspace_getD (s t : ℚ) (n i : ℕ) (h : i < n) :
    (linspace s t n).getD i 0 = s + (t - s) * i / ((n : ℚ) - 1) := by
  have hlen : i < (linspace s t n).length := by rw [linspace_length]; exact h
  rw [List.getD_eq_getElem _ _ hlen]
  simp only [linspace, List.getElem_map, List.getElem_range]

lemma linspace_head (s t : ℚ) (n : ℕ) (h : 0 < n) : (linspace s t n).getD 0 0 = s := by
  rw [linspace_getD s t n 0 h]
  norm_num

lemma linspace_last (s t : ℚ) (n : ℕ) (h : 2 ≤ n) :
    (linspace s t n).getD (n - 1) 0 = t := by
  rw [linspace_getD s t n (n - 1) (by omega)]
  have hc : ((n - 1 : ℕ) : ℚ) = (n : ℚ) - 1 := by
    push_cast [Nat.cast_sub (by omega : 1 ≤ n)]
    ring
  have hD : ((n : ℚ) - 1) ≠ 0 := by
    have : (2 : ℚ) ≤ (n : ℚ) := by exact_mod_cast h
    linarith
  rw [hc, mul_div_assoc, div_self hD, mul_one]
  ring

lemma linspace_spacing (s t : ℚ) (n i : ℕ) (h : i + 1 < n) :
    (linspace s t n).getD (i + 1) 0 - (linspace s t n).getD i 0
      = (t - s) / ((n : ℚ) - 1) := by
  rw [linspace_getD s t n (i + 1) h, linspace_getD s t n i (by omega)]
  push_cast
  ring

/-! ## Claim theorems: the pure classification and ranking rules -/

/-- C1: for a candidate reaction with a nonempty per-step flux list,
`vmin`/`vmax` are the minimum/maximum flux over the scan steps, and the
`is_target` flag is true iff `vmax * vmin ≥ 0` and `|vmax| > |flux at
step 0|`; in particular per-step fluxes `[1, -2, 3]` give no target and
`[1, 2, 3]` give a target. -/
theorem scan_target_rule (l : List ℚ) (h : l ≠ []) :
    ((mkScanRow l).target = true ↔
      ((mkScanRow l).vmax * (mkScanRow l).vmin ≥ 0 ∧ |(mkScanRow l).vmax| > |l.headD 0|))
    ∧ ((mkScanRow l).vmin ∈ l ∧ ∀ x ∈ l, (mkScanRow l).vmin ≤ x)
    ∧ ((mkScanRow l).vmax ∈ l ∧ ∀ x ∈ l, x ≤ (mkScanRow l).vmax)
    ∧ (mkScanRow [1, -2, 3]).target = false
    ∧ (mkScanRow [1, 2, 3]).target = true := by
  refine ⟨?_, ⟨listMin_mem l h, fun x hx => listMin_le l x hx⟩,
    ⟨listMax_mem l h, fun x hx => listMax_ge l x hx⟩, ?_, ?_⟩
  · rw [mkScanRow_target, mkScanRow_vmin, mkScanRow_vmax]
    simp [Bool.and_eq_true, decide_eq_true_iff]
  · rw [mkScanRow_target]
    norm_num [listMin, listMax, min_def, max_def]
  · rw [mkScanRow_target]
    norm_num [listMin, listMax, min_def, max_def]

/-- Witness for C1: the theorem evaluated at the concrete flux list
`[1, 2, 3]`. -/
theorem scan_target_rule_witness :
    ((mkScanRow [(1 : ℚ), 2, 3]).target = true ↔
      ((mkScanRow [(1 : ℚ), 2, 3]).vmax * (mkScanRow [(1 : ℚ), 2, 3]).vmin ≥ 0 ∧
        |(mkScanRow [(1 : ℚ), 2, 3]).vmax| > |([(1 : ℚ), 2, 3]).headD 0|))
    ∧ ((mkScanRow [(1 : ℚ), 2, 3]).vmin ∈ [(1 : ℚ), 2, 3] ∧
        ∀ x ∈ [(1 : ℚ), 2, 3], (mkScanRow [(1 : ℚ), 2, 3]).vmin ≤ x)
    ∧ ((mkScanRow [(1 : ℚ), 2, 3]).vmax ∈ [(1 : ℚ), 2, 3] ∧
        ∀ x ∈ [(1 : ℚ), 2, 3], x ≤ (mkScanRow [(1 : ℚ), 2, 3]).vmax)
    ∧ (mkScanRow [1, -2, 3]).target = false
    ∧ (mkScanRow [1, 2, 3]).target = true :=
  scan_target_rule [(1 : ℚ), 2, 3] (by simp)

/-- C2: the rank of a target reaction is in `{0, 1, 2, 3}` and is
determined by the three nested checks: rank `≥ 1` iff the per-step
minimum bounds are non-decreasing; rank `≥ 2` iff additionally
`min(max_fluxes) < max(min_fluxes)`; rank `≥ 3` iff additionally the
largest per-step width is strictly below `1e-3`; a reaction failing
check 1 has rank `0`, and one passing check 1 but failing check 2 has
rank exactly `1`. -/
theorem fva_rank_nested_checks (mins maxs : List ℚ) :
    rankOf mins maxs ≤ 3
    ∧ (1 ≤ rankOf mins maxs ↔ mins.Sorted (· ≤ ·))
    ∧ (2 ≤ rankOf mins maxs ↔ (mins.Sorted (· ≤ ·) ∧ listMin maxs < listMax mins))
    ∧ (3 ≤ rankOf mins maxs ↔
        (mins.Sorted (· ≤ ·) ∧ listMin maxs < listMax mins ∧ maxWidth mins maxs < 1 / 1000))
    ∧ (¬ mins.Sorted (· ≤ ·) → rankOf mins maxs = 0)
    ∧ (mins.Sorted (· ≤ ·) → ¬ listMin maxs < listMax mins → rankOf mins maxs = 1) := by
  have hiff : pySorted mins = mins ↔ mins.Sorted (· ≤ ·) := pySorted_eq_iff mins
  by_cases h1 : pySorted mins = mins
  · by_cases h2 : listMin maxs < listMax mins
    · by_cases h3 : maxWidth mins maxs < 1 / 1000
      · simp only [rankOf, if_pos h1, if_pos h2, if_pos h3]
        simp [← hiff, h1, h2]
        rw [← one_div]
        exact h3
      · simp only [rankOf, if_pos h1, if_pos h2, if_neg h3]
        simp [← hiff, h1, h2]
        rw [← one_div]
        exact not_lt.mp h3
    · simp only [rankOf, if_pos h1, if_neg h2]
      simp [← hiff, h1, h2]
  · simp only [rankOf, if_neg h1]
    simp [← hiff, h1]

/-- C10: a reaction whose per-step fluxes are all non-positive and
non-increasing in step order is never a target: its `vmax` equals the
step-0 flux, so the magnitude condition fails, even when the flux
magnitude strictly grows in the negative direction (in which case
`|vmin|` strictly exceeds the step-0 magnitude). -/
theorem nonpositive_decreasing_not_target (l : List ℚ) (hne : l ≠ [])
    (hnp : ∀ x ∈ l, x ≤ 0) (hmono : l.Chain' (· ≥ ·)) :
    (mkScanRow l).target = false
    ∧ (mkScanRow l).vmax = l.headD 0
    ∧ ((∃ y ∈ l, y < l.headD 0) → |(mkScanRow l).vmin| > |l.headD 0|) := by
  match l, hne with
  | x :: xs, _ =>
    have hpw : (x :: xs).Pairwise (· ≥ ·) := List.chain'_iff_pairwise.mp hmono
    have hxs : ∀ y ∈ xs, y ≤ x := fun y hy => (List.pairwise_cons.mp hpw).1 y hy
    have hmax : listMax (x :: xs) = x := foldl_max_of_le xs x hxs
    have hhead : (x :: xs).headD 0 = x := rfl
    refine ⟨?_, ?_, ?_⟩
    · rw [mkScanRow_target, hmax, hhead]
      simp
    · rw [mkScanRow_vmax, hmax, hhead]
    · rintro ⟨y, hy, hylt⟩
      rw [hhead] at hylt
      have h1 : listMin (x :: xs) ≤ y := listMin_le _ y hy
      have h2 : listMin (x :: xs) ≤ 0 :=
        hnp _ (listMin_mem (x :: xs) (by simp))
      have hx0 : x ≤ 0 := hnp x (List.mem_cons_self x xs)
      rw [mkScanRow_vmin, hhead, abs_of_nonpos h2, abs_of_nonpos hx0]
      linarith

/-- Witness for C10: the theorem evaluated at the concrete flux list
`[-1, -2, -3]`. -/
theorem nonpositive_decreasing_not_target_witness :
    (mkScanRow [(-1 : ℚ), -2, -3]).target = false
    ∧ (mkScanRow [(-1 : ℚ), -2, -3]).vmax = ([(-1 : ℚ), -2, -3]).headD 0
    ∧ ((∃ y ∈ [(-1 : ℚ), -2, -3], y < ([(-1 : ℚ), -2, -3]).headD 0) →
        |(mkScanRow [(-1 : ℚ), -2, -3]).vmin| > |([(-1 : ℚ), -2, -3]).headD 0|) :=
  nonpositive_decreasing_not_target [(-1 : ℚ), -2, -3] (by simp)
    (by intro x hx; fin_cases hx <;> norm_num)
    (by norm_num [List.chain'_cons])

/-- C3: for positive `num_steps` and a successful run, the scan enforces
the `num_steps` equally spaced values from `enforced_base` to
`enforced_frac_opt * enforced_opt` inclusive: the step table has exactly
`num_steps` rows whose enforced fluxes are `linspace enforced_base
(enforced_frac_opt * enforced_opt) num_steps`, the step-0 enforced flux
equals `enforced_base`, the last point equals the upper bound when
`num_steps ≥ 2`, consecutive points are equally spaced, and the concrete
scenario `enforced_base = 0`, `enforced_opt = 10`, `enforced_frac_opt =
1`, `num_steps = 3` scans exactly `[0, 5, 10]`. -/
theorem scan_enforces_linspace {ε : Type} (model0 : CobraModel) (num_steps : ℕ)
    (enforced objective : ReactionLike) (dir : Direction) (frac : ℚ)
    (reactions? : Option (List ReactionLike))
    (sol : CobraModel → Solution) (f : CobraModel → List String → FvaResult)
    (hN : 0 < num_steps)
    (hne : sol (setDirection (setObjective model0.copy (as_id enforced)) dir) (as_id enforced)
           ≠ sol (setObjective model0.copy (as_id objective)) (as_id enforced)) :
    ∃ r : FSEOFResults,
      (fseof (ε := ε) model0 num_steps enforced objective dir frac reactions?
          (totOpt sol) (totFva f)).result = Except.ok r
      ∧ r.step.length = num_steps
      ∧ r.step.map (fun p => p.enforced_flux)
          = linspace (sol (setObjective model0.copy (as_id objective)) (as_id enforced))
              (frac * sol (setDirection (setObjective model0.copy (as_id enforced)) dir)
                (as_id enforced)) num_steps
      ∧ (r.step.headD ⟨0, 0⟩).enforced_flux
          = sol (setObjective model0.copy (as_id objective)) (as_id enforced)
      ∧ (2 ≤ num_steps →
          (linspace (sol (setObjective model0.copy (as_id objective)) (as_id enforced))
              (frac * sol (setDirection (setObjective model0.copy (as_id enforced)) dir)
                (as_id enforced)) num_steps).getD (num_steps - 1) 0
            = frac * sol (setDirection (setObjective model0.copy (as_id enforced)) dir)
                (as_id enforced))
      ∧ (∀ i, i + 1 < num_steps →
          (linspace (sol (setObjective model0.copy (as_id objective)) (as_id enforced))
              (frac * sol (setDirection (setObjective model0.copy (as_id enforced)) dir)
                (as_id enforced)) num_steps).getD (i + 1) 0
          - (linspace (sol (setObjective model0.copy (as_id objective)) (as_id enforced))
              (frac * sol (setDirection (setObjective model0.copy (as_id enforced)) dir)
                (as_id enforced)) num_steps).getD i 0
          = (frac * sol (setDirection (setObjective model0.copy (as_id enforced)) dir)
                (as_id enforced)
             - sol (setObjective model0.copy (as_id objective)) (as_id enforced))
            / ((num_steps : ℚ) - 1))
      ∧ linspace 0 10 3 = [0, 5, 10] := by
  rw [fseof_total model0 num_steps enforced objective dir frac reactions? sol f hne]
  simp only [fseofOk]
  refine ⟨_, rfl, ?_, ?_, ?_,
    fun h2 => linspace_last _ _ _ h2,
    fun i hi => linspace_spacing _ _ _ i hi,
    by norm_num [linspace, List.range_succ]⟩
  · simp [stepSolsOf, linspace_length]
  · simp [stepSolsOf, List.map_map, Function.comp_def]
  · rcases hvs : linspace (sol (setObjective model0.copy (as_id objective)) (as_id enforced))
        (frac * sol (setDirection (setObjective model0.copy (as_id enforced)) dir)
          (as_id enforced)) num_steps with _ | ⟨v0, vrest⟩
    · exact absurd hvs (linspace_ne_nil _ _ _ hN)
    · have hh := linspace_head (sol (setObjective model0.copy (as_id objective)) (as_id enforced))
        (frac * sol (setDirection (setObjective model0.copy (as_id enforced)) dir)
          (as_id enforced)) num_steps hN
      rw [hvs] at hh
      simp only [List.getD_cons_zero] at hh
      simp [stepSolsOf, hh]

/-- Witness for C3: the theorem evaluated on the two-reaction fixture
with `num_steps = 3`, `enforced_frac_opt = 1`, base flux `0` and optimum
`10`. -/
theorem scan_enforces_linspace_witness :
    ∃ r : FSEOFResults,
      (fseof (ε := Unit) wModel 3 (.str "R1") (.str "R2") .dmax 1 none
          (totOpt wSol) (totFva wFva)).result = Except.ok r
      ∧ r.step.length = 3
      ∧ r.step.map (fun p => p.enforced_flux)
          = linspace (wSol (setObjective wModel.copy (as_id (.str "R2"))) (as_id (.str "R1")))
              (1 * wSol (setDirection (setObjective wModel.copy (as_id (.str "R1"))) .dmax)
                (as_id (.str "R1"))) 3
      ∧ (r.step.headD ⟨0, 0⟩).enforced_flux
          = wSol (setObjective wModel.copy (as_id (.str "R2"))) (as_id (.str "R1"))
      ∧ (2 ≤ 3 →
          (linspace (wSol (setObjective wModel.copy (as_id (.str "R2"))) (as_id (.str "R1")))
              (1 * wSol (setDirection (setObjective wModel.copy (as_id (.str "R1"))) .dmax)
                (as_id (.str "R1"))) 3).getD (3 - 1) 0
            = 1 * wSol (setDirection (setObjective wModel.copy (as_id (.str "R1"))) .dmax)
                (as_id (.str "R1")))
      ∧ (∀ i, i + 1 < 3 →
          (linspace (wSol (setObjective wModel.copy (as_id (.str "R2"))) (as_id (.str "R1")))
              (1 * wSol (setDirection (setObjective wModel.copy (as_id (.str "R1"))) .dmax)
                (as_id (.str "R1"))) 3).getD (i + 1) 0
          - (linspace (wSol (setObjective wModel.copy (as_id (.str "R2"))) (as_id (.str "R1")))
              (1 * wSol (setDirection (setObjective wModel.copy (as_id (.str "R1"))) .dmax)
                (as_id (.str "R1"))) 3).getD i 0
          = (1 * wSol (setDirection (setObjective wModel.copy (as_id (.str "R1"))) .dmax)
                (as_id (.str "R1"))
             - wSol (setObjective wModel.copy (as_id (.str "R2"))) (as_id (.str "R1")))
            / (((3 : ℕ) : ℚ) - 1))
      ∧ linspace 0 10 3 = [0, 5, 10] :=
  scan_enforces_linspace (ε := Unit) wModel 3 (.str "R1") (.str "R2") .dmax 1 none wSol wFva
    (by norm_num)
    (by simp [wSol, wModel, CobraModel.copy, setObjective, setDirection, as_id])

/-- C4: when the two bound-finding optimizations return the same
enforced flux, `fseof` raises the configuration error (`ValueError` in
the source) with a call log holding exactly the two bound-finding
optimizer calls — no scan-stage call is made — and no results bundle is
returned. -/
theorem config_error_before_scan {ε : Type} (model0 : CobraModel) (num_steps : ℕ)
    (enforced objective : ReactionLike) (dir : Direction) (frac : ℚ)
    (reactions? : Option (List ReactionLike))
    (optimizer : CobraModel → Except ε Solution)
    (fvaCap : CobraModel → List String → Except ε FvaResult)
    (s1 s2 : Solution)
    (h1 : optimizer (setObjective model0.copy (as_id objective)) = Except.ok s1)
    (h2 : optimizer (setDirection (setObjective model0.copy (as_id enforced)) dir)
            = Except.ok s2)
    (heq : s2 (as_id enforced) = s1 (as_id enforced)) :
    fseof model0 num_steps enforced objective dir frac reactions? optimizer fvaCap
      = ⟨model0,
         [.opt (setObjective model0.copy (as_id objective)),
          .opt (setDirection (setObjective model0.copy (as_id enforced)) dir)],
         .error .valueError⟩ := by
  unfold fseof
  simp only [h1, h2, if_pos heq]

/-- Witness for C4: a run on the fixture whose optimizer returns flux 0
for the enforced reaction under both objectives. -/
theorem config_error_before_scan_witness :
    fseof wModel 3 (.str "R1") (.str "R2") .dmax (9 / 10) none
        (totOpt (ε := Unit) wSolConst) (totFva wFva)
      = ⟨wModel,
         [.opt (setObjective wModel.copy (as_id (.str "R2"))),
          .opt (setDirection (setObjective wModel.copy (as_id (.str "R1"))) .dmax)],
         .error .valueError⟩ :=
  config_error_before_scan wModel 3 (.str "R1") (.str "R2") .dmax (9 / 10) none
    (totOpt wSolConst) (totFva wFva)
    (wSolConst (setObjective wModel.copy (as_id (.str "R2"))))
    (wSolConst (setDirection (setObjective wModel.copy (as_id (.str "R1"))) .dmax))
    rfl rfl rfl

lemma candidatesOf_eq (sol : CobraModel → Solution) (work : CobraModel)
    (enfId objId : String) (vs : List ℚ) (rids : List String) :
    ((rids.map (fun rid =>
        (rid, mkScanRow ((stepSolsOf sol work enfId objId vs).map (fun p => p.2 rid))))).filter
      (fun p => p.2.target)).map (fun p => p.1)
      = candidatesOf sol work enfId objId vs rids := by
  simp [candidatesOf, stepSolsOf, List.map_map, Function.comp_def]

/-- C6: a failure of the optimization capability at any scan step, or of
the flux-variability capability at any FVA step, propagates unchanged to
the caller: the run ends in that very error and no results bundle is
returned. -/
theorem capability_failure_propagates {ε : Type} (model0 : CobraModel) (num_steps : ℕ)
    (enforced objective : ReactionLike) (dir : Direction) (frac : ℚ)
    (reactions? : Option (List ReactionLike))
    (optimizer : CobraModel → Except ε Solution)
    (fvaCap : CobraModel → List String → Except ε FvaResult)
    (s1 s2 : Solution) (e : ε)
    (h1 : optimizer (setObjective model0.copy (as_id objective)) = Except.ok s1)
    (h2 : optimizer (setDirection (setObjective model0.copy (as_id enforced)) dir)
            = Except.ok s2)
    (hne : s2 (as_id enforced) ≠ s1 (as_id enforced))
    (habort :
      scanAborts model0.copy (as_id enforced) (as_id objective) optimizer
        (linspace (s1 (as_id enforced)) (frac * s2 (as_id enforced)) num_steps) e
      ∨ ∃ sol : CobraModel → Solution,
          optimizer = totOpt sol
          ∧ s1 = sol (setObjective model0.copy (as_id objective))
          ∧ s2 = sol (setDirection (setObjective model0.copy (as_id enforced)) dir)
          ∧ fvaAborts model0.copy (as_id enforced) (as_id objective) fvaCap
              (candidatesOf sol model0.copy (as_id enforced) (as_id objective)
                (linspace (s1 (as_id enforced)) (frac * s2 (as_id enforced)) num_steps)
                (fseofCandidates model0.copy enforced objective reactions?))
              (linspace (s1 (as_id enforced)) (frac * s2 (as_id enforced)) num_steps) e) :
    (fseof model0 num_steps enforced objective dir frac reactions? optimizer fvaCap).result
      = Except.error (.external e) := by
  rcases habort with hscan | ⟨sol, hopt, hs1, hs2, hfva⟩
  · obtain ⟨vs₁, v, vs₂, hsplit, hok, herr⟩ := hscan
    have hs := scanLoop_error model0.copy (as_id enforced) (as_id objective) optimizer
      vs₁ v vs₂ e hok herr
    rw [← hsplit] at hs
    rcases hsc : scanLoop model0.copy (as_id enforced) (as_id objective) optimizer
        (linspace (s1 (as_id enforced)) (frac * s2 (as_id enforced)) num_steps)
      with ⟨slog, res⟩
    rw [hsc] at hs
    simp only at hs
    subst hs
    unfold fseof
    simp only [h1, h2, if_neg hne, hsc]
  · subst hopt hs1 hs2
    obtain ⟨vs₁, v, vs₂, hsplit, hok, herr⟩ := hfva
    have hf := fvaLoop_error model0.copy (as_id enforced) (as_id objective) fvaCap
      (candidatesOf sol model0.copy (as_id enforced) (as_id objective)
        (linspace (sol (setObjective model0.copy (as_id objective)) (as_id enforced))
          (frac * sol (setDirection (setObjective model0.copy (as_id enforced)) dir)
            (as_id enforced)) num_steps)
        (fseofCandidates model0.copy enforced objective reactions?))
      vs₁ v vs₂ e hok herr
    rw [← hsplit] at hf
    rcases hfc : fvaLoop model0.copy (as_id enforced) (as_id objective) fvaCap
        (candidatesOf sol model0.copy (as_id enforced) (as_id objective)
          (linspace (sol (setObjective model0.copy (as_id objective)) (as_id enforced))
            (frac * sol (setDirection (setObjective model0.copy (as_id enforced)) dir)
              (as_id enforced)) num_steps)
          (fseofCandidates model0.copy enforced objective reactions?))
        (linspace (sol (setObjective model0.copy (as_id objective)) (as_id enforced))
          (frac * sol (setDirection (setObjective model0.copy (as_id enforced)) dir)
            (as_id enforced)) num_steps)
      with ⟨flog, res⟩
    rw [hfc] at hf
    simp only at hf
    subst hf
    unfold fseof
    simp only [totOpt, scanLoop_ok, if_neg hne, candidatesOf_eq, hfc]

/-- Witness for C6: an optimizer that succeeds on the two bound-finding
states and fails (infeasible) on the first scan step aborts the whole
run with that error. -/
theorem capability_failure_propagates_witness :
    (fseof wModel 2 (.str "R1") (.str "R2") .dmax 1 none wOptFail
        (totFva wFva)).result = Except.error (.external ()) :=
  capability_failure_propagates wModel 2 (.str "R1") (.str "R2") .dmax 1 none wOptFail
    (totFva wFva)
    (wSol (setObjective wModel.copy (as_id (.str "R2"))))
    (wSol (setDirection (setObjective wModel.copy (as_id (.str "R1"))) .dmax))
    ()
    (by simp [wOptFail, wModel, CobraModel.copy, setObjective, as_id]; norm_num)
    (by
      simp [wOptFail, wModel, CobraModel.copy, setObjective, setDirection, as_id]
      norm_num)
    (by simp [wSol, wModel, CobraModel.copy, setObjective, setDirection, as_id])
    (Or.inl ⟨[], 0, [10],
      by
        simp [wSol, wModel, CobraModel.copy, setObjective, setDirection, as_id,
          linspace, List.range_succ]
        norm_num,
      by simp,
      by
        simp [wOptFail, stepState, setBounds, setObjective, wModel, CobraModel.copy,
          as_id]⟩)

/-- C5: in a successful run the fva (ranked) table holds exactly the
reactions whose `target` flag is true in the scan table (as a
permutation of the filtered scan index), its rows are sorted by
non-increasing rank, and every flux-variability call of the run is made
on exactly that target set. -/
theorem fva_table_sorted_targets {ε : Type} (model0 : CobraModel) (num_steps : ℕ)
    (enforced objective : ReactionLike) (dir : Direction) (frac : ℚ)
    (reactions? : Option (List ReactionLike))
    (sol : CobraModel → Solution) (f : CobraModel → List String → FvaResult)
    (hne : sol (setDirection (setObjective model0.copy (as_id enforced)) dir) (as_id enforced)
           ≠ sol (setObjective model0.copy (as_id objective)) (as_id enforced)) :
    ∃ r : FSEOFResults,
      (fseof (ε := ε) model0 num_steps enforced objective dir frac reactions?
          (totOpt sol) (totFva f)).result = Except.ok r
      ∧ (r.fva.map Prod.fst).Perm ((r.scan.filter (fun p => p.2.target)).map Prod.fst)
      ∧ List.Sorted (fun a b => b.2.rank ≤ a.2.rank) r.fva
      ∧ (∀ st rs, CallRecord.fva st rs ∈
            (fseof (ε := ε) model0 num_steps enforced objective dir frac reactions?
              (totOpt sol) (totFva f)).log →
          rs = (r.scan.filter (fun p => p.2.target)).map Prod.fst) := by
  rw [fseof_total model0 num_steps enforced objective dir frac reactions? sol f hne]
  simp only [fseofOk]
  refine ⟨_, rfl, ?_, ?_, ?_⟩
  · refine ((List.perm_insertionSort _ _).map _).trans ?_
    simp [List.map_map, Function.comp_def]
  · haveI : IsTotal (String × FvaRow) (fun a b => b.2.rank ≤ a.2.rank) :=
      ⟨fun a b => le_total b.2.rank a.2.rank⟩
    haveI : IsTrans (String × FvaRow) (fun a b => b.2.rank ≤ a.2.rank) :=
      ⟨fun _ _ _ hab hbc => le_trans hbc hab⟩
    exact List.sorted_insertionSort _ _
  · intro st rs hmem
    simp only [List.mem_cons, List.mem_append, scanStatesOf, List.mem_map] at hmem
    rcases hmem with h | h | ⟨v, hv, h⟩ | ⟨v, hv, h⟩
    · exact absurd h (by simp)
    · exact absurd h (by simp)
    · exact absurd h (by simp)
    · rw [CallRecord.fva.injEq] at h
      exact h.2.symm

/-- Witness for C5: the theorem evaluated on the two-reaction fixture. -/
theorem fva_table_sorted_targets_witness :
    ∃ r : FSEOFResults,
      (fseof (ε := Unit) wModel 3 (.str "R1") (.str "R2") .dmax 1 none
          (totOpt wSol) (totFva wFva)).result = Except.ok r
      ∧ (r.fva.map Prod.fst).Perm ((r.scan.filter (fun p => p.2.target)).map Prod.fst)
      ∧ List.Sorted (fun a b => b.2.rank ≤ a.2.rank) r.fva
      ∧ (∀ st rs, CallRecord.fva st rs ∈
            (fseof (ε := Unit) wModel 3 (.str "R1") (.str "R2") .dmax 1 none
              (totOpt wSol) (totFva wFva)).log →
          rs = (r.scan.filter (fun p => p.2.target)).map Prod.fst) :=
  fva_table_sorted_targets (ε := Unit) wModel 3 (.str "R1") (.str "R2") .dmax 1 none wSol wFva
    (by simp [wSol, wModel, CobraModel.copy, setObjective, setDirection, as_id])

lemma copy_eq (m : CobraModel) : m.copy = m := by
  cases m with
  | mk rs o d =>
    simp only [CobraModel.copy]
    congr 1
    have h : (fun (r : Reaction) =>
        ({ id := r.id, boundary := r.boundary, functional := r.functional,
           lb := r.lb, ub := r.ub } : Reaction)) = fun r => r := funext fun r => rfl
    rw [h]
    exact List.map_id' rs

/-- C8: the caller's model object is never mutated by a run: every
objective and bound mutation targets the private deep copy, and on every
exit path — result bundle, configuration error, or capability failure —
the caller's model is returned unchanged.  The deep copy starts out
equal to the original. -/
theorem caller_model_unchanged {ε : Type} (model0 : CobraModel) (num_steps : ℕ)
    (enforced objective : ReactionLike) (dir : Direction) (frac : ℚ)
    (reactions? : Option (List ReactionLike))
    (optimizer : CobraModel → Except ε Solution)
    (fvaCap : CobraModel → List String → Except ε FvaResult) :
    (fseof model0 num_steps enforced objective dir frac reactions?
        optimizer fvaCap).callerModel = model0
    ∧ CobraModel.copy model0 = model0 := by
  constructor
  · unfold fseof
    simp only []
    repeat' split
    all_goals rfl
  · exact copy_eq model0

/-- C9: the analysis is deterministic — two runs on equal inputs, with
the same (deterministic) optimizer and variability capability, produce
equal outcomes: same caller model, same call log, and the same results
bundle (step, scan and fva tables, row order included). -/
theorem deterministic_rerun {ε : Type} (m1 m2 : CobraModel) (n1 n2 : ℕ)
    (e1 e2 o1 o2 : ReactionLike) (d1 d2 : Direction) (f1 f2 : ℚ)
    (r1 r2 : Option (List ReactionLike))
    (opt1 opt2 : CobraModel → Except ε Solution)
    (fva1 fva2 : CobraModel → List String → Except ε FvaResult)
    (hm : m1 = m2) (hn : n1 = n2) (he : e1 = e2) (ho : o1 = o2) (hd : d1 = d2)
    (hf : f1 = f2) (hr : r1 = r2) (hopt : opt1 = opt2) (hfva : fva1 = fva2) :
    fseof m1 n1 e1 o1 d1 f1 r1 opt1 fva1 = fseof m2 n2 e2 o2 d2 f2 r2 opt2 fva2 := by
  subst hm hn he ho hd hf hr hopt hfva
  rfl

/-- Witness for C9: two runs on the C3 fixture coincide. -/
theorem deterministic_rerun_witness :
    fseof (ε := Unit) wModel 3 (.str "R1") (.str "R2") .dmax 1 none
        (totOpt wSol) (totFva wFva)
      = fseof (ε := Unit) wModel 3 (.str "R1") (.str "R2") .dmax 1 none
        (totOpt wSol) (totFva wFva) :=
  deterministic_rerun wModel wModel 3 3 (.str "R1") (.str "R1") (.str "R2") (.str "R2")
    .dmax .dmax 1 1 none none (totOpt wSol) (totOpt wSol) (totFva wFva) (totFva wFva)
    rfl rfl rfl rfl rfl rfl rfl rfl rfl

/-- C7 (failing-input evaluation): when the caller omits `reactions` and
passes `enforced` as a reaction *object*, the default candidate set does
NOT exclude the enforced reaction: `default_reactions` is invoked with
the raw `[enforced, objective]` list before `as_id` conversion, and a
reaction id (a string) never equals a reaction object under Python
equality.  On `cModel` with enforced object `P` and objective id `"B"`
the code yields `["P", "X"]` — containing the enforced reaction `P`,
a non-boundary functional reaction — while the spec's described set is
`["X"]`.  With both arguments given as id strings the code does match
the spec, here and in general. -/
theorem default_candidates_object_form_bug :
    fseofCandidates cModel (.rxn pRxn) (.str "B") none = ["P", "X"]
    ∧ as_id (.rxn pRxn) = "P"
    ∧ pRxn.boundary = false
    ∧ pRxn.functional = true
    ∧ fseofCandidates cModel (.rxn pRxn) (.str "B") none
        ≠ specDefaultCandidates cModel (as_id (.rxn pRxn)) (as_id (.str "B"))
    ∧ specDefaultCandidates cModel "P" "B" = ["X"]
    ∧ fseofCandidates cModel (.str "P") (.str "B") none
        = specDefaultCandidates cModel "P" "B"
    ∧ ∀ (model : CobraModel) (e o : String),
        fseofCandidates model (.str e) (.str o) none = specDefaultCandidates model e o := by
  refine ⟨by decide, rfl, rfl, rfl, by decide, by decide, by decide, ?_⟩
  intro model e o
  simp only [fseofCandidates, default_reactions, specDefaultCandidates]
  have h : (fun (r : Reaction) =>
      !([ReactionLike.str e, ReactionLike.str o].any (pyStrEq r.id))
        && !r.boundary && r.functional)
      = (fun (r : Reaction) => !(r.id == e) && !(r.id == o) && !r.boundary && r.functional) := by
    funext r
    simp [pyStrEq, List.any_cons, List.any_nil, Bool.not_or, Bool.or_false, Bool.and_assoc]
  rw [h]

end CobraFseof
